import Mathlib

set_option autoImplicit false

/-!
Verification of the Firestore document-mapping core of gcp-pilot
(`gcp_pilot/firestore/*`): a shallow embedding of the `Query` builder,
`Manager`, `Document`, `Paginator` and the atomic-batch scope, together
with a list-based model of the external document-store driver capability
(collections, where/order_by/cursor/limit, streaming).

Machine integers do not occur in this layer; Python ints are modelled as
`Int`/`Nat`.  Python exceptions are modelled as `Except` with a tag type.
-/

namespace GcpPilot

/-- Python exception outcomes raised by this layer (tags only; the message
payloads carried by the real exceptions are dropped). -/
inductive PyErr where
  | valueError
  | typeError
  | attributeError
  | runtimeError
  | invalidCursor
  | doesNotExist
  | multipleObjectsFound
  deriving DecidableEq, Repr

/-- Primitive Firestore field values. -/
inductive Prim where
  | pStr (s : String)
  | pInt (n : Int)
  | pBool (b : Bool)
  | pNull
  deriving DecidableEq, Repr

/-- Field values: a primitive or an array of primitives (arrays are what the
`array_contains` family of operators works on). -/
inductive Value where
  | prim (p : Prim)
  | arr (xs : List Prim)
  deriving DecidableEq, Repr

/-- A driver-level field filter triple, as built by `FieldFilter(field_path,
operator, value)` in `query.py` / `manager.py`. -/
structure FieldFilterT where
  fieldPath : String
  op : String
  value : Value
  deriving DecidableEq, Repr

/-- The `LOOKUP_OPERATORS` table shared verbatim by `Query` and `Manager`. -/
def lookupOperators : List (String × String) :=
  [("eq", "=="), ("ne", "!="), ("gt", ">"), ("gte", ">="), ("lt", "<"),
   ("lte", "<="), ("in", "in"), ("not_in", "not-in"),
   ("contains", "array_contains"), ("contains_any", "array_contains_any")]

/-- Python `str.split` specialised to the separator `__`, over the character
list (non-overlapping, left to right). -/
def splitOnDunderAux : List Char → List Char → List (List Char)
  | [], acc => [acc.reverse]
  | '_' :: '_' :: rest, acc => acc.reverse :: splitOnDunderAux rest []
  | c :: rest, acc => splitOnDunderAux rest (c :: acc)

def pySplitDunder (s : String) : List String :=
  (splitOnDunderAux s.data []).map (fun cs => String.mk cs)

/-- Python `".".join(parts)` over character lists. -/
def dotJoinChars : List (List Char) → List Char
  | [] => []
  | [p] => p
  | p :: rest => p ++ '.' :: dotJoinChars rest

def pyDotJoin (parts : List String) : String :=
  String.mk (dotJoinChars (parts.map String.data))

/-- Kwarg-key parsing shared by `Query.filter` and `Manager.filter`:
split on a double underscore; when there is more than one part and the last
part is a known lookup, it selects the operator and the remaining parts are
joined with dots into the field path; otherwise the whole key (dot-joined)
is an implicit equality. -/
def parseFilterKey (key : String) : String × String :=
  let parts := pySplitDunder key
  match parts.getLast? with
  | some lastPart =>
    if parts.length > 1 && (lookupOperators.lookup lastPart).isSome then
      (pyDotJoin parts.dropLast, (lookupOperators.lookup lastPart).getD "==")
    else
      (pyDotJoin parts, "==")
  | none => (key, "==")

/-- Build the `FieldFilter` for one keyword argument. -/
def mkFieldFilter (kv : String × Value) : FieldFilterT :=
  let pk := parseFilterKey kv.1
  { fieldPath := pk.1, op := pk.2, value := kv.2 }

/-- A driver document: server id plus its field map (field paths are stored
dot-joined, mirroring the flat field-path addressing of the driver). -/
structure Doc where
  docId : String
  fields : List (String × Value)
  deriving DecidableEq, Repr

/-! ### The external document-store driver capability (spec section 6)

The driver is out of scope for the repository itself; the model below is a
plain list semantics for `where` / `order_by` / cursors / `limit` /
`stream`, executable so that concrete query runs can be evaluated. -/

def primRank : Prim → Nat
  | .pNull => 0
  | .pBool _ => 1
  | .pInt _ => 2
  | .pStr _ => 3

def primCmp (a b : Prim) : Ordering :=
  match a, b with
  | .pNull, .pNull => .eq
  | .pBool x, .pBool y => compare x y
  | .pInt x, .pInt y => compare x y
  | .pStr x, .pStr y => compare x y
  | _, _ => compare (primRank a) (primRank b)

def primListCmp : List Prim → List Prim → Ordering
  | [], [] => .eq
  | [], _ :: _ => .lt
  | _ :: _, [] => .gt
  | x :: xs, y :: ys =>
    match primCmp x y with
    | .eq => primListCmp xs ys
    | o => o

def valueCmp (a b : Value) : Ordering :=
  match a, b with
  | .prim x, .prim y => primCmp x y
  | .arr xs, .arr ys => primListCmp xs ys
  | .prim _, .arr _ => .lt
  | .arr _, .prim _ => .gt

/-- Driver evaluation of one field filter against a document. -/
def evalFieldFilter (f : FieldFilterT) (d : Doc) : Bool :=
  match d.fields.lookup f.fieldPath with
  | none => false
  | some v =>
    match f.op with
    | "==" => v == f.value
    | "!=" => v != f.value
    | ">" => valueCmp v f.value == .gt
    | ">=" => valueCmp v f.value != .lt
    | "<" => valueCmp v f.value == .lt
    | "<=" => valueCmp v f.value != .gt
    | "in" =>
      match v, f.value with
      | .prim p, .arr xs => xs.contains p
      | _, _ => false
    | "not-in" =>
      match v, f.value with
      | .prim p, .arr xs => !xs.contains p
      | _, _ => false
    | "array_contains" =>
      match v, f.value with
      | .arr xs, .prim p => xs.contains p
      | _, _ => false
    | "array_contains_any" =>
      match v, f.value with
      | .arr xs, .arr ys => xs.any (fun x => ys.contains x)
      | _, _ => false
    | _ => false

def docMatchesAll (fs : List FieldFilterT) (d : Doc) : Bool :=
  fs.all (fun f => evalFieldFilter f d)

/-- Composite comparison of two documents along the order-by clauses
(`(field, descending)` pairs); missing fields sort as null. -/
def docCmpByOrders : List (String × Bool) → Doc → Doc → Ordering
  | [], _, _ => .eq
  | (f, desc) :: rest, a, b =>
    let va := (a.fields.lookup f).getD (Value.prim .pNull)
    let vb := (b.fields.lookup f).getD (Value.prim .pNull)
    let o := valueCmp va vb
    let o := if desc then o.swap else o
    match o with
    | .eq => docCmpByOrders rest a b
    | _ => o

def insertByCmp (cmp : Doc → Doc → Ordering) (x : Doc) : List Doc → List Doc
  | [] => [x]
  | y :: ys => if cmp x y == .gt then y :: insertByCmp cmp x ys else x :: y :: ys

def sortByCmp (cmp : Doc → Doc → Ordering) : List Doc → List Doc
  | [] => []
  | x :: xs => insertByCmp cmp x (sortByCmp cmp xs)

/-- Position of a document relative to a cursor's field values along the
order-by clauses; a cursor missing one of the order fields is a driver
`ValueError`. -/
def cursorCmpDoc : List (String × Bool) → List (String × Value) → Doc → Except PyErr Ordering
  | [], _, _ => .ok .eq
  | (f, desc) :: rest, cvals, d =>
    match cvals.lookup f with
    | none => .error .valueError
    | some cv =>
      let dv := (d.fields.lookup f).getD (Value.prim .pNull)
      let o := valueCmp dv cv
      let o := if desc then o.swap else o
      match o with
      | .eq => cursorCmpDoc rest cvals d
      | _ => .ok o

/-- Keep the documents positioned after the cursor; with the before-flag set
(`start_at`) the cursor position itself is kept as well. -/
def dropBeforeCursor (orders : List (String × Bool)) (cvals : List (String × Value))
    (before : Bool) : List Doc → Except PyErr (List Doc)
  | [] => .ok []
  | d :: ds => do
    let rest ← dropBeforeCursor orders cvals before ds
    let o ← cursorCmpDoc orders cvals d
    let keep := match o with
      | .gt => true
      | .eq => before
      | .lt => false
    .ok (if keep then d :: rest else rest)

/-- A driver-level query under construction: the builder surface used by
`Query._build_query` / `Manager.filter`.  A second `start_at`/`start_after`
call overrides the first, as in the real driver (both write the single start
cursor slot, with a before-flag distinguishing them). -/
structure DriverQuery where
  source : List Doc
  wheres : List FieldFilterT
  orders : List (String × Bool)
  startCursor : Option (List (String × Value) × Bool)
  limitN : Option Int
  deriving DecidableEq, Repr

def emptyDriverQuery (coll : List Doc) : DriverQuery :=
  { source := coll, wheres := [], orders := [], startCursor := none, limitN := none }

def dqWhere (dq : DriverQuery) (f : FieldFilterT) : DriverQuery :=
  { dq with wheres := dq.wheres ++ [f] }

def dqOrderBy (dq : DriverQuery) (field : String) (desc : Bool) : DriverQuery :=
  { dq with orders := dq.orders ++ [(field, desc)] }

def dqStartAfter (dq : DriverQuery) (vals : List (String × Value)) : DriverQuery :=
  { dq with startCursor := some (vals, false) }

def dqStartAt (dq : DriverQuery) (vals : List (String × Value)) : DriverQuery :=
  { dq with startCursor := some (vals, true) }

def dqLimit (dq : DriverQuery) (n : Int) : DriverQuery :=
  { dq with limitN := some n }

def applyStartCursor (orders : List (String × Bool))
    (cur : Option (List (String × Value) × Bool)) (docs : List Doc) :
    Except PyErr (List Doc) :=
  match cur with
  | none => .ok docs
  | some (cvals, before) => dropBeforeCursor orders cvals before docs

/-- Driver-side streaming of a built query: filter, then sort by the
order-by clauses, then position at the cursor, then cap with the limit. -/
def dqStream (dq : DriverQuery) : Except PyErr (List Doc) := do
  let filtered := dq.source.filter (docMatchesAll dq.wheres)
  let sorted := if dq.orders.isEmpty then filtered else sortByCmp (docCmpByOrders dq.orders) filtered
  let positioned ← applyStartCursor dq.orders dq.startCursor sorted
  let limited := match dq.limitN with
    | some n => positioned.take n.toNat
    | none => positioned
  .ok limited

/-! ### Cursors and Python truthiness -/

/-- A pagination cursor argument: a dict, a Document / pydantic model
(already reduced to its dumped field map), or some unsupported object. -/
inductive Cursor where
  | dict (entries : List (String × Value))
  | docModel (entries : List (String × Value))
  | other
  deriving DecidableEq, Repr

/-- Python truthiness of the optional cursor attributes (`if self._start_after:`):
`None` and the empty dict are falsy; a non-empty dict, a pydantic model and
any other object are truthy. -/
def cursorTruthy : Option Cursor → Bool
  | none => false
  | some (.dict entries) => !entries.isEmpty
  | some (.docModel _) => true
  | some .other => true

/-- `Query._dump_cursor` / the isinstance checks in `Manager.filter`: a dict
is used as-is, a pydantic model is `model_dump`ped, anything else raises
`InvalidCursor`. -/
def dumpCursor : Cursor → Except PyErr (List (String × Value))
  | .dict e => .ok e
  | .docModel e => .ok e
  | .other => .error .invalidCursor

/-- Python truthiness of the optional int `_limit` (`if self._limit:`). -/
def pyTruthyOptInt : Option Int → Bool
  | none => false
  | some n => n != 0

/-- Python truthiness of the optional list `order_by` argument of
`Manager.filter`. -/
def pyTruthyOptList (o : Option (List String)) : Bool :=
  match o with
  | none => false
  | some l => !l.isEmpty

/-- Python truthiness of an optional string (a document pk). -/
def pyTruthyOptStr : Option String → Bool
  | none => false
  | some s => !s.data.isEmpty

/-! ### The Query criteria and the compiled pipeline (`query.py`) -/

/-- The criteria captured by a `Query` object: filter triples, order-by
clauses, limit, the two cursors, and the kwargs kept for repr/diagnostics. -/
structure QueryS where
  whereFilters : List FieldFilterT
  orderByL : List String
  limitV : Option Int
  startAfterV : Option Cursor
  startAtV : Option Cursor
  filtersForRepr : List (String × Value)
  deriving DecidableEq, Repr

/-- `Query.__init__`: all criteria empty. -/
def emptyQueryS : QueryS :=
  { whereFilters := [], orderByL := [], limitV := none, startAfterV := none,
    startAtV := none, filtersForRepr := [] }

/-- Python `dict` assignment of one key (overwrite if present, else append). -/
def dictSet (d : List (String × Value)) (k : String) (v : Value) : List (String × Value) :=
  if d.any (fun kv => kv.1 == k) then
    d.map (fun kv => if kv.1 == k then (k, v) else kv)
  else
    d ++ [(k, v)]

/-- Python `dict.update`. -/
def dictUpdate (d : List (String × Value)) (kvs : List (String × Value)) : List (String × Value) :=
  kvs.foldl (fun acc kv => dictSet acc kv.1 kv.2) d

/-- Effect of `Query.filter(**kwargs)` on the criteria: record the kwargs for
repr and append one parsed `FieldFilter` per kwarg. -/
def queryFilterF (q : QueryS) (kwargs : List (String × Value)) : QueryS :=
  { q with
    filtersForRepr := dictUpdate q.filtersForRepr kwargs,
    whereFilters := q.whereFilters ++ kwargs.map mkFieldFilter }

/-- Effect of `Query.order_by(*fields)` on the criteria. -/
def queryOrderByF (q : QueryS) (fields : List String) : QueryS :=
  { q with orderByL := q.orderByL ++ fields }

/-- Effect of `Query.limit(count)` on the criteria (the limit is replaced). -/
def queryLimitF (q : QueryS) (n : Int) : QueryS :=
  { q with limitV := some n }

/-- Effect of `Query.start_after(cursor)` on the criteria. -/
def queryStartAfterF (q : QueryS) (c : Cursor) : QueryS :=
  { q with startAfterV := some c }

/-- Effect of `Query.start_at(cursor)` on the criteria. -/
def queryStartAtF (q : QueryS) (c : Cursor) : QueryS :=
  { q with startAtV := some c }

/-- Python `str.lstrip("+")` over the character list. -/
def dropLeadingPlus : List Char → List Char
  | '+' :: rest => dropLeadingPlus rest
  | l => l

/-- Order-by field parsing in `Query._apply_ordering` / `Manager.filter`: a
leading minus selects descending on the rest of the name; otherwise
ascending on the name with leading plus signs stripped. -/
def parseOrderField (field : String) : String × Bool :=
  match field.data with
  | '-' :: rest => (String.mk rest, true)
  | _ => (String.mk (dropLeadingPlus field.data), false)

/-- `Query._apply_filters`: start from the manager's collection and chain one
driver `where` per captured filter. -/
def applyFiltersF (q : QueryS) (coll : List Doc) : DriverQuery :=
  q.whereFilters.foldl dqWhere (emptyDriverQuery coll)

/-- `Query._apply_ordering`. -/
def applyOrderingF (q : QueryS) (dq : DriverQuery) : DriverQuery :=
  if q.orderByL.isEmpty then dq
  else q.orderByL.foldl (fun acc f =>
    let pf := parseOrderField f
    dqOrderBy acc pf.1 pf.2) dq

/-- `Query._apply_pagination`: raises `ValueError` when a (truthy) cursor is
present without any order-by clause; otherwise dumps and applies the truthy
cursors. -/
def applyPaginationF (q : QueryS) (dq : DriverQuery) : Except PyErr DriverQuery :=
  if q.orderByL.isEmpty && (cursorTruthy q.startAfterV || cursorTruthy q.startAtV) then
    .error .valueError
  else do
    let dq1 ← match q.startAfterV with
      | some c =>
        if cursorTruthy (some c) then (dumpCursor c).map (dqStartAfter dq)
        else pure dq
      | none => pure dq
    let dq2 ← match q.startAtV with
      | some c =>
        if cursorTruthy (some c) then (dumpCursor c).map (dqStartAt dq1)
        else pure dq1
      | none => pure dq1
    pure dq2

/-- `Query._apply_limit`: only a truthy limit is forwarded to the driver. -/
def applyLimitF (q : QueryS) (dq : DriverQuery) : DriverQuery :=
  if pyTruthyOptInt q.limitV then dqLimit dq (q.limitV.getD 0) else dq

/-- `Query._build_query`: filters, then ordering, then pagination, then
limit, in that fixed order. -/
def buildQueryF (q : QueryS) (coll : List Doc) : Except PyErr DriverQuery :=
  (applyPaginationF q (applyOrderingF q (applyFiltersF q coll))).map (applyLimitF q)

/-- Iterating a `Query` (`__aiter__`): build the driver query, stream it and
rehydrate the snapshots. -/
def queryIterF (q : QueryS) (coll : List Doc) : Except PyErr (List Doc) := do
  let dq ← buildQueryF q coll
  dqStream dq

/-- `Query.get`: re-execute with the limit replaced by 2; empty result raises
`DoesNotExist`, more than one result raises `MultipleObjectsFound`, otherwise
the single document is returned. -/
def queryGetF (q : QueryS) (coll : List Doc) : Except PyErr Doc :=
  match queryIterF (queryLimitF q 2) coll with
  | .error e => .error e
  | .ok results =>
    match results with
    | [] => .error .doesNotExist
    | [d] => .ok d
    | _ :: _ :: _ => .error .multipleObjectsFound

/-! ### `Manager.filter` (the async-generator variant in `manager.py`) -/

/-- The keyword arguments accepted by `Manager.filter`. -/
structure MFilterArgs where
  orderByA : Option (List String)
  limitA : Option Int
  startAfterA : Option Cursor
  startAtA : Option Cursor
  kwargs : List (String × Value)
  deriving DecidableEq, Repr

/-- What iterating the generator produced by `Manager.filter` yields: the
body builds the driver query (wheres from kwargs, ordering, the order-by
guard, cursors, limit, in source order) and streams it. -/
def managerFilterRun (a : MFilterArgs) (coll : List Doc) : Except PyErr (List Doc) := do
  let q0 := a.kwargs.foldl (fun acc kv => dqWhere acc (mkFieldFilter kv)) (emptyDriverQuery coll)
  let q1 := if pyTruthyOptList a.orderByA then
      (a.orderByA.getD []).foldl (fun acc f =>
        let pf := parseOrderField f
        dqOrderBy acc pf.1 pf.2) q0
    else q0
  if !pyTruthyOptList a.orderByA && (cursorTruthy a.startAfterA || cursorTruthy a.startAtA) then
    Except.error .valueError
  else do
    let q2 ← match a.startAfterA with
      | some c =>
        if cursorTruthy (some c) then (dumpCursor c).map (dqStartAfter q1)
        else pure q1
      | none => pure q1
    let q3 ← match a.startAtA with
      | some c =>
        if cursorTruthy (some c) then
          if !pyTruthyOptList a.orderByA then Except.error PyErr.valueError
          else (dumpCursor c).map (dqStartAt q2)
        else pure q2
      | none => pure q2
    let q4 := if pyTruthyOptInt a.limitA then dqLimit q3 (a.limitA.getD 0) else q3
    dqStream q4

/-- The value returned by calling `Manager.filter(...)`: an async generator
object suspended at its start.  The second component counts the driver
operations issued by the call itself; calling an async generator function
runs none of its body, so it is 0. -/
structure AsyncGenHandle where
  args : MFilterArgs
  deriving DecidableEq, Repr

def managerFilterCall (a : MFilterArgs) : AsyncGenHandle × Nat := ({ args := a }, 0)

/-! ### Object identity: a small heap for Query objects

`Query._clone` copies the mutable attribute lists with `list.copy()` /
`dict.copy()`; the chain methods then mutate only the clone.  To state that
the receiver is a *distinct object* whose criteria are untouched, Query
objects and their mutable lists live in an explicit heap of references. -/

/-- Read a list cell at an index, with a default out of range. -/
def lget {α : Type} (l : List α) (i : Nat) (dflt : α) : α :=
  match l, i with
  | [], _ => dflt
  | x :: _, 0 => x
  | _ :: xs, n + 1 => lget xs n dflt

/-- Write a list cell at an index (no-op out of range). -/
def lset {α : Type} (l : List α) (i : Nat) (x : α) : List α :=
  match l, i with
  | [], _ => []
  | _ :: xs, 0 => x :: xs
  | y :: xs, n + 1 => y :: lset xs n x

/-- A Query object's attributes: references into the heap for the three
mutable collections, plus the by-value attributes. -/
structure QueryObj where
  whereRef : Nat
  orderRef : Nat
  limitV : Option Int
  startAfterV : Option Cursor
  startAtV : Option Cursor
  reprRef : Nat
  deriving DecidableEq, Repr

def emptyObj : QueryObj :=
  { whereRef := 0, orderRef := 0, limitV := none, startAfterV := none,
    startAtV := none, reprRef := 0 }

/-- The heap: one store per kind of mutable Python object involved. -/
structure QHeap where
  filterLists : List (List FieldFilterT)
  strLists : List (List String)
  dicts : List (List (String × Value))
  objs : List QueryObj
  deriving DecidableEq, Repr

def emptyHeap : QHeap := { filterLists := [], strLists := [], dicts := [], objs := [] }

def allocFilterList (h : QHeap) (xs : List FieldFilterT) : QHeap × Nat :=
  ({ h with filterLists := h.filterLists ++ [xs] }, h.filterLists.length)

def allocStrList (h : QHeap) (xs : List String) : QHeap × Nat :=
  ({ h with strLists := h.strLists ++ [xs] }, h.strLists.length)

def allocDict (h : QHeap) (xs : List (String × Value)) : QHeap × Nat :=
  ({ h with dicts := h.dicts ++ [xs] }, h.dicts.length)

def allocObj (h : QHeap) (o : QueryObj) : QHeap × Nat :=
  ({ h with objs := h.objs ++ [o] }, h.objs.length)

def getFilterList (h : QHeap) (r : Nat) : List FieldFilterT := lget h.filterLists r []

def getStrList (h : QHeap) (r : Nat) : List String := lget h.strLists r []

def getDict (h : QHeap) (r : Nat) : List (String × Value) := lget h.dicts r []

def getObj (h : QHeap) (i : Nat) : QueryObj := lget h.objs i emptyObj

def setFilterList (h : QHeap) (r : Nat) (xs : List FieldFilterT) : QHeap :=
  { h with filterLists := lset h.filterLists r xs }

def setStrList (h : QHeap) (r : Nat) (xs : List String) : QHeap :=
  { h with strLists := lset h.strLists r xs }

def setDict (h : QHeap) (r : Nat) (xs : List (String × Value)) : QHeap :=
  { h with dicts := lset h.dicts r xs }

def setObj (h : QHeap) (i : Nat) (o : QueryObj) : QHeap :=
  { h with objs := lset h.objs i o }

/-- `Query.__init__`: allocate three fresh empty collections and the object. -/
def newQueryOp (h : QHeap) : QHeap × Nat :=
  let a1 := allocFilterList h []
  let a2 := allocStrList a1.1 []
  let a3 := allocDict a2.1 []
  allocObj a3.1
    { whereRef := a1.2, orderRef := a2.2, limitV := none, startAfterV := none,
      startAtV := none, reprRef := a3.2 }

/-- `Query._clone`: construct a fresh Query, then rebind every attribute of
the clone: the three collections to shallow copies of the receiver's, the
by-value attributes to (shallow copies of) the receiver's. -/
def cloneOp (h : QHeap) (i : Nat) : QHeap × Nat :=
  let o := getObj h i
  let n1 := newQueryOp h
  let a1 := allocFilterList n1.1 (getFilterList n1.1 o.whereRef)
  let a2 := allocStrList a1.1 (getStrList a1.1 o.orderRef)
  let a3 := allocDict a2.1 (getDict a2.1 o.reprRef)
  (setObj a3.1 n1.2
    { whereRef := a1.2, orderRef := a2.2, limitV := o.limitV,
      startAfterV := o.startAfterV, startAtV := o.startAtV, reprRef := a3.2 },
   n1.2)

/-- `Query.filter(**kwargs)`: clone, update the clone's repr dict, append one
parsed filter per kwarg to the clone's filter list. -/
def filterOp (h : QHeap) (i : Nat) (kwargs : List (String × Value)) : QHeap × Nat :=
  let hc := cloneOp h i
  let co := getObj hc.1 hc.2
  let h2 := setDict hc.1 co.reprRef (dictUpdate (getDict hc.1 co.reprRef) kwargs)
  let h3 := setFilterList h2 co.whereRef (getFilterList h2 co.whereRef ++ kwargs.map mkFieldFilter)
  (h3, hc.2)

/-- `Query.order_by(*fields)`: clone, extend the clone's order-by list. -/
def orderByOp (h : QHeap) (i : Nat) (fields : List String) : QHeap × Nat :=
  let hc := cloneOp h i
  let co := getObj hc.1 hc.2
  (setStrList hc.1 co.orderRef (getStrList hc.1 co.orderRef ++ fields), hc.2)

/-- `Query.limit(count)`: clone, set the clone's limit attribute. -/
def limitOp (h : QHeap) (i : Nat) (n : Int) : QHeap × Nat :=
  let hc := cloneOp h i
  let co := getObj hc.1 hc.2
  (setObj hc.1 hc.2 { co with limitV := some n }, hc.2)

/-- `Query.start_after(cursor)`: clone, set the clone's cursor attribute. -/
def startAfterOp (h : QHeap) (i : Nat) (cur : Cursor) : QHeap × Nat :=
  let hc := cloneOp h i
  let co := getObj hc.1 hc.2
  (setObj hc.1 hc.2 { co with startAfterV := some cur }, hc.2)

/-- `Query.start_at(cursor)`: clone, set the clone's cursor attribute. -/
def startAtOp (h : QHeap) (i : Nat) (cur : Cursor) : QHeap × Nat :=
  let hc := cloneOp h i
  let co := getObj hc.1 hc.2
  (setObj hc.1 hc.2 { co with startAtV := some cur }, hc.2)

/-- The observable criteria of the Query object at reference `i`: its filter
list, order-by list, limit, and the two cursors. -/
def criteria (h : QHeap) (i : Nat) :
    List FieldFilterT × List String × Option Int × Option Cursor × Option Cursor :=
  let o := getObj h i
  (getFilterList h o.whereRef, getStrList h o.orderRef, o.limitV, o.startAfterV, o.startAtV)

/-- A valid Query reference: the object exists and its collection references
point into the respective stores. -/
def WF (h : QHeap) (i : Nat) : Prop :=
  i < h.objs.length
  ∧ (getObj h i).whereRef < h.filterLists.length
  ∧ (getObj h i).orderRef < h.strLists.length
  ∧ (getObj h i).reprRef < h.dicts.length

instance (h : QHeap) (i : Nat) : Decidable (WF h i) := by
  unfold WF; infer_instance

/-! ### The atomic batch scope (`atomic.py`) -/

/-- A write staged on the batch inside the scope (abstract labels). -/
abbrev StagedWrite := String

/-- Driver-visible effects of one run of the `batch()` scope. -/
inductive BatchEffect where
  | created (handle : Nat)
  | committed (handle : Nat) (writes : List StagedWrite)
  deriving DecidableEq, Repr

/-- How the body of the scope finishes, and which writes it staged onto the
ambient batch while running. -/
inductive BodyOutcome where
  | normal (staged : List StagedWrite)
  | raises (e : PyErr) (staged : List StagedWrite)
  deriving DecidableEq, Repr

deriving instance DecidableEq for Except

structure BatchScopeResult where
  finalActive : Option Nat
  result : Except PyErr Unit
  effects : List BatchEffect
  deriving DecidableEq, Repr

/-- The `batch()` async context manager: if a batch is already active in the
context, raise `RuntimeError` before creating any handle; otherwise create a
fresh batch handle, publish it, run the body, commit on normal completion,
and reset the ambient variable to its entry token on every exit path. -/
def runBatchScope (active0 : Option Nat) (fresh : Nat) (body : BodyOutcome) :
    BatchScopeResult :=
  match active0 with
  | some _ =>
    { finalActive := active0, result := .error .runtimeError, effects := [] }
  | none =>
    match body with
    | .normal staged =>
      { finalActive := none, result := .ok (),
        effects := [.created fresh, .committed fresh staged] }
    | .raises e _ =>
      { finalActive := none, result := .error e, effects := [.created fresh] }

def isCommitEffect : BatchEffect → Bool
  | .committed _ _ => true
  | .created _ => false

/-! ### `Document.save` and the `Manager.create` call (`document.py`) -/

/-- A Document instance: the nullable pk plus the user fields (the pk field
itself is excluded from the field map, mirroring `model_dump(exclude=pk)`). -/
structure PyDocument where
  idV : Option String
  fields : List (String × Value)
  deriving DecidableEq, Repr

/-- The parameter names of `Manager.create` in `manager.py`
(`async def create(self, data)` — `self` aside, only `data`). -/
def managerCreateParamNames : List String := ["data"]

/-- Python call binding by keyword: every passed keyword must name a declared
parameter, and every declared parameter must be supplied. -/
def pyCallBinds (params : List String) (kwargNames : List String) : Bool :=
  kwargNames.all (fun k => params.contains k) && params.all (fun p => kwargNames.contains p)

/-- `Manager.create(data)` on the direct path: the driver pre-allocates a
fresh document id, the data is written, and the rehydrated document is
returned. -/
def managerCreateF (freshId : String) (data : List (String × Value)) : PyDocument :=
  { idV := some freshId, fields := data }

/-- `Document.save`: dump all fields except the pk, then call
`self.manager.create(data=data, pk=self.pk)`; on success adopt the returned
pk and return self.  The call passes the keyword names `data` and `pk`. -/
def documentSave (freshId : String) (d : PyDocument) : Except PyErr PyDocument :=
  let data := d.fields
  if pyCallBinds managerCreateParamNames ["data", "pk"] then
    let savedDoc := managerCreateF freshId data
    Except.ok { d with idV := savedDoc.idV }
  else
    Except.error .typeError

/-! ### `Manager.collection` for subcollections (`manager.py`) -/

/-- The attribute names available on a Document subclass: the declared
field/property/method names of `document.py` plus the two class attributes
installed by `__init_subclass__` (`documents`, `_meta`) and the private
`_manager`. -/
def documentClassAttrNames : List String :=
  ["id", "model_config", "pk", "manager", "save", "update", "refresh",
   "delete", "documents", "_meta", "_manager"]

/-- A Manager: its collection name, the optional parent instance it is bound
to (subcollection managers), and the parent's own collection name (what the
parent's manager would resolve to). -/
structure ManagerS where
  collectionName : String
  parent : Option PyDocument
  parentCollectionName : String
  deriving DecidableEq, Repr

/-- The `Manager.collection` property: without a parent, the top-level
collection; with a parent, first the pk guard, then the resolution through
`self.parent.objects`, whose attribute lookup on the Document class decides
whether the path is ever built. -/
def managerCollection (m : ManagerS) : Except PyErr (List String) :=
  match m.parent with
  | none => .ok [m.collectionName]
  | some p =>
    if !(pyTruthyOptStr p.idV) then .error .valueError
    else if documentClassAttrNames.contains "objects" then
      .ok [m.parentCollectionName, p.idV.getD "", m.collectionName]
    else .error .attributeError

/-! ### Attribute tables for `Manager`, `Query` and async generators -/

/-- The attribute names defined in the body of `class Manager` in
`manager.py`. -/
def managerClassAttrNames : List String :=
  ["LOOKUP_OPERATORS", "_client", "_to_document", "client", "collection_name",
   "collection", "get", "create", "update", "delete", "filter"]

/-- The methods of a Python async generator object (what a call to the
src `Manager.filter` actually returns). -/
def asyncGeneratorAttrNames : List String :=
  ["__aiter__", "__anext__", "asend", "athrow", "aclose"]

/-- The attribute names defined in the body of `class Query` in `query.py`. -/
def queryClassAttrNames : List String :=
  ["LOOKUP_OPERATORS", "_clone", "filter", "order_by", "limit", "start_after",
   "start_at", "get", "_build_query", "_apply_filters", "_apply_ordering",
   "_dump_cursor", "_apply_pagination", "_apply_limit", "__aiter__"]

/-! ### Paginator (`paginator.py`) -/

/-- Modelled from the spec: `Query.count` is missing from the source tree
(`paginator.py` and the paginator tests call it, but `query.py` does not
define it).  Spec sections 4.4 and 6: a count aggregation executed against
the Query's filter criteria, ignoring limit and cursor. -/
def queryCountSpec (q : QueryS) (coll : List Doc) : Nat :=
  (coll.filter (docMatchesAll q.whereFilters)).length

/-- Paginator state: the page size and the per-instance count cache. -/
structure PaginatorS where
  perPage : Nat
  countCache : Option Nat
  deriving DecidableEq, Repr

/-- `Paginator.count`: memoized count.  The third component is the number of
count aggregations executed by this call. -/
def paginatorCount (p : PaginatorS) (q : QueryS) (coll : List Doc) :
    Nat × PaginatorS × Nat :=
  match p.countCache with
  | some c => (c, p, 0)
  | none =>
    let c := queryCountSpec q coll
    (c, { p with countCache := some c }, 1)

/-- `Paginator.num_pages`: 0 when `per_page` is 0, otherwise
`math.ceil(count / per_page)` (for naturals, `(c + pp - 1) / pp`). -/
def paginatorNumPages (p : PaginatorS) (q : QueryS) (coll : List Doc) :
    Nat × PaginatorS :=
  if p.perPage = 0 then (0, p)
  else
    let cr := paginatorCount p q coll
    ((cr.1 + p.perPage - 1) / p.perPage, cr.2.1)

/-! ### Concrete fixtures used by witness and counterexample theorems -/

def baseHeap : QHeap := (newQueryOp emptyHeap).1

def docA : Doc := { docId := "a", fields := [("price", Value.prim (Prim.pInt 10))] }

def docB : Doc := { docId := "b", fields := [("price", Value.prim (Prim.pInt 20))] }

def docC : Doc := { docId := "c", fields := [("price", Value.prim (Prim.pInt 200))] }

def collABC : List Doc := [docA, docB, docC]

def qSingleMatch : QueryS :=
  { emptyQueryS with whereFilters := [mkFieldFilter ("price__lt", Value.prim (Prim.pInt 15))] }

def qLimitZero : QueryS :=
  { emptyQueryS with
    whereFilters := [mkFieldFilter ("price__lt", Value.prim (Prim.pInt 100))],
    limitV := some 0 }

def aLimitZero : MFilterArgs :=
  { orderByA := none, limitA := some 0, startAfterA := none, startAtA := none,
    kwargs := [("price__lt", Value.prim (Prim.pInt 100))] }

def qFalsyCursor : QueryS := { emptyQueryS with startAfterV := some (Cursor.dict []) }

def qTruthyCursorNoOrder : QueryS :=
  { emptyQueryS with startAfterV := some (Cursor.dict [("price", Value.prim (Prim.pInt 10))]) }

def aTruthyCursorNoOrder : MFilterArgs :=
  { orderByA := none, limitA := none,
    startAfterA := some (Cursor.dict [("price", Value.prim (Prim.pInt 10))]),
    startAtA := none, kwargs := [] }

/-- The attribute record of the object `Query._clone` returns, relative to
the receiver's heap: references to the three copied collections plus the
receiver's by-value attributes. -/
def cloneObjOf (h : QHeap) (i : Nat) : QueryObj :=
  { whereRef := h.filterLists.length + 1,
    orderRef := h.strLists.length + 1,
    limitV := (getObj h i).limitV,
    startAfterV := (getObj h i).startAfterV,
    startAtV := (getObj h i).startAtV,
    reprRef := h.dicts.length + 1 }

def parentDoc : PyDocument := { idV := some "p1", fields := [] }

def reviewsManager : ManagerS :=
  { collectionName := "reviews", parent := some parentDoc, parentCollectionName := "products" }

/-! ## Supporting lemmas -/

theorem lget_append_lt {α : Type} (l l2 : List α) (i : Nat) (d : α) (hi : i < l.length) :
    lget (l ++ l2) i d = lget l i d := by
  induction l generalizing i with
  | nil => simp at hi
  | cons x xs ih =>
    cases i with
    | zero => rfl
    | succ n =>
      simp only [List.cons_append, lget]
      exact ih n (by simp at hi; omega)

theorem lget_append_self {α : Type} (l : List α) (x : α) (xs : List α) (d : α) :
    lget (l ++ x :: xs) l.length d = x := by
  induction l with
  | nil => rfl
  | cons y ys ih => simpa [lget] using ih

theorem lget_append_succ {α : Type} (l : List α) (x y : α) (xs : List α) (d : α) :
    lget (l ++ x :: y :: xs) (l.length + 1) d = y := by
  induction l with
  | nil => rfl
  | cons z zs ih => simpa [lget] using ih

theorem lget_lset_ne {α : Type} (l : List α) (i j : Nat) (x : α) (d : α) (hij : i ≠ j) :
    lget (lset l j x) i d = lget l i d := by
  induction l generalizing i j with
  | nil => rfl
  | cons y ys ih =>
    cases j with
    | zero =>
      cases i with
      | zero => exact absurd rfl hij
      | succ n => rfl
    | succ m =>
      cases i with
      | zero => rfl
      | succ n => simpa [lset, lget] using ih n m (by omega)

theorem lset_append_self {α : Type} (l : List α) (x : α) (xs : List α) (z : α) :
    lset (l ++ x :: xs) l.length z = l ++ z :: xs := by
  induction l with
  | nil => rfl
  | cons y ys ih => simpa [lset] using ih

theorem lset_append_succ {α : Type} (l : List α) (x y : α) (xs : List α) (z : α) :
    lset (l ++ x :: y :: xs) (l.length + 1) z = l ++ x :: z :: xs := by
  induction l with
  | nil => rfl
  | cons w ws ih => simpa [lset] using ih

/-- Two heaps whose relevant cells read the same give the same criteria. -/
theorem criteria_of_reads (h h2 : QHeap) (i : Nat)
    (hobj : getObj h2 i = getObj h i)
    (hfl : getFilterList h2 (getObj h i).whereRef = getFilterList h (getObj h i).whereRef)
    (hsl : getStrList h2 (getObj h i).orderRef = getStrList h (getObj h i).orderRef) :
    criteria h2 i = criteria h i := by
  simp [criteria, hobj, hfl, hsl]

/-- `Query._clone` in explicit form: the receiver's heap grows by the
`__init__` allocations plus the copied collections, and the clone object
(the last allocated object) carries references to the copies and the
receiver's by-value attributes. -/
theorem cloneOp_eq (h : QHeap) (i : Nat)
    (hw : (getObj h i).whereRef < h.filterLists.length)
    (ho : (getObj h i).orderRef < h.strLists.length)
    (hr : (getObj h i).reprRef < h.dicts.length) :
    cloneOp h i =
      ({ filterLists := h.filterLists ++ [[], getFilterList h (getObj h i).whereRef],
         strLists := h.strLists ++ [[], getStrList h (getObj h i).orderRef],
         dicts := h.dicts ++ [[], getDict h (getObj h i).reprRef],
         objs := h.objs ++ [cloneObjOf h i] },
       h.objs.length) := by
  have e1 : lget (h.filterLists ++ [[]]) (getObj h i).whereRef [] =
      lget h.filterLists (getObj h i).whereRef [] :=
    lget_append_lt _ _ _ _ hw
  have e2 : lget (h.strLists ++ [[]]) (getObj h i).orderRef [] =
      lget h.strLists (getObj h i).orderRef [] :=
    lget_append_lt _ _ _ _ ho
  have e3 : lget (h.dicts ++ [[]]) (getObj h i).reprRef [] =
      lget h.dicts (getObj h i).reprRef [] :=
    lget_append_lt _ _ _ _ hr
  simp [cloneOp, newQueryOp, allocFilterList, allocStrList, allocDict, allocObj,
    setObj, getFilterList, getStrList, getDict, e1, e2, e3, lset_append_self,
    cloneObjOf]

theorem filterOp_spec (h : QHeap) (i : Nat) (hwf : WF h i)
    (kwargs : List (String × Value)) :
    (filterOp h i kwargs).2 = h.objs.length
      ∧ criteria (filterOp h i kwargs).1 i = criteria h i := by
  obtain ⟨hi, hw, ho, hr⟩ := hwf
  have hc := cloneOp_eq h i hw ho hr
  refine ⟨by simp [filterOp, hc], ?_⟩
  have hfst : (filterOp h i kwargs).1 =
      { filterLists := h.filterLists ++
          [[], getFilterList h (getObj h i).whereRef ++ kwargs.map mkFieldFilter],
        strLists := h.strLists ++ [[], getStrList h (getObj h i).orderRef],
        dicts := h.dicts ++ [[], dictUpdate (getDict h (getObj h i).reprRef) kwargs],
        objs := h.objs ++ [cloneObjOf h i] } := by
    simp [filterOp, hc, setDict, setFilterList, getObj, getDict, getFilterList,
      cloneObjOf, lget_append_self, lget_append_succ, lset_append_succ]
  rw [hfst]
  apply criteria_of_reads
  · simp only [getObj]
    exact lget_append_lt _ _ _ _ hi
  · simp only [getFilterList]
    exact lget_append_lt _ _ _ _ hw
  · simp only [getStrList]
    exact lget_append_lt _ _ _ _ ho

theorem orderByOp_spec (h : QHeap) (i : Nat) (hwf : WF h i) (fields : List String) :
    (orderByOp h i fields).2 = h.objs.length
      ∧ criteria (orderByOp h i fields).1 i = criteria h i := by
  obtain ⟨hi, hw, ho, hr⟩ := hwf
  have hc := cloneOp_eq h i hw ho hr
  refine ⟨by simp [orderByOp, hc], ?_⟩
  have hfst : (orderByOp h i fields).1 =
      { filterLists := h.filterLists ++ [[], getFilterList h (getObj h i).whereRef],
        strLists := h.strLists ++ [[], getStrList h (getObj h i).orderRef ++ fields],
        dicts := h.dicts ++ [[], getDict h (getObj h i).reprRef],
        objs := h.objs ++ [cloneObjOf h i] } := by
    simp [orderByOp, hc, setStrList, getObj, getStrList, cloneObjOf,
      lget_append_self, lget_append_succ, lset_append_succ]
  rw [hfst]
  apply criteria_of_reads
  · simp only [getObj]
    exact lget_append_lt _ _ _ _ hi
  · simp only [getFilterList]
    exact lget_append_lt _ _ _ _ hw
  · simp only [getStrList]
    exact lget_append_lt _ _ _ _ ho

theorem limitOp_spec (h : QHeap) (i : Nat) (hwf : WF h i) (n : Int) :
    (limitOp h i n).2 = h.objs.length
      ∧ criteria (limitOp h i n).1 i = criteria h i := by
  obtain ⟨hi, hw, ho, hr⟩ := hwf
  have hc := cloneOp_eq h i hw ho hr
  refine ⟨by simp [limitOp, hc], ?_⟩
  have hfst : (limitOp h i n).1 =
      { filterLists := h.filterLists ++ [[], getFilterList h (getObj h i).whereRef],
        strLists := h.strLists ++ [[], getStrList h (getObj h i).orderRef],
        dicts := h.dicts ++ [[], getDict h (getObj h i).reprRef],
        objs := h.objs ++ [{ cloneObjOf h i with limitV := some n }] } := by
    simp [limitOp, hc, setObj, getObj, cloneObjOf, lget_append_self,
      lset_append_self]
  rw [hfst]
  apply criteria_of_reads
  · simp only [getObj]
    exact lget_append_lt _ _ _ _ hi
  · simp only [getFilterList]
    exact lget_append_lt _ _ _ _ hw
  · simp only [getStrList]
    exact lget_append_lt _ _ _ _ ho

theorem startAfterOp_spec (h : QHeap) (i : Nat) (hwf : WF h i) (cur : Cursor) :
    (startAfterOp h i cur).2 = h.objs.length
      ∧ criteria (startAfterOp h i cur).1 i = criteria h i := by
  obtain ⟨hi, hw, ho, hr⟩ := hwf
  have hc := cloneOp_eq h i hw ho hr
  refine ⟨by simp [startAfterOp, hc], ?_⟩
  have hfst : (startAfterOp h i cur).1 =
      { filterLists := h.filterLists ++ [[], getFilterList h (getObj h i).whereRef],
        strLists := h.strLists ++ [[], getStrList h (getObj h i).orderRef],
        dicts := h.dicts ++ [[], getDict h (getObj h i).reprRef],
        objs := h.objs ++ [{ cloneObjOf h i with startAfterV := some cur }] } := by
    simp [startAfterOp, hc, setObj, getObj, cloneObjOf, lget_append_self,
      lset_append_self]
  rw [hfst]
  apply criteria_of_reads
  · simp only [getObj]
    exact lget_append_lt _ _ _ _ hi
  · simp only [getFilterList]
    exact lget_append_lt _ _ _ _ hw
  · simp only [getStrList]
    exact lget_append_lt _ _ _ _ ho

theorem foldl_dqWhere (fs : List FieldFilterT) (dq : DriverQuery) :
    fs.foldl dqWhere dq = { dq with wheres := dq.wheres ++ fs } := by
  induction fs generalizing dq with
  | nil => simp
  | cons f rest ih => simp [dqWhere, ih]

theorem startAtOp_spec (h : QHeap) (i : Nat) (hwf : WF h i) (cur : Cursor) :
    (startAtOp h i cur).2 = h.objs.length
      ∧ criteria (startAtOp h i cur).1 i = criteria h i := by
  obtain ⟨hi, hw, ho, hr⟩ := hwf
  have hc := cloneOp_eq h i hw ho hr
  refine ⟨by simp [startAtOp, hc], ?_⟩
  have hfst : (startAtOp h i cur).1 =
      { filterLists := h.filterLists ++ [[], getFilterList h (getObj h i).whereRef],
        strLists := h.strLists ++ [[], getStrList h (getObj h i).orderRef],
        dicts := h.dicts ++ [[], getDict h (getObj h i).reprRef],
        objs := h.objs ++ [{ cloneObjOf h i with startAtV := some cur }] } := by
    simp [startAtOp, hc, setObj, getObj, cloneObjOf, lget_append_self,
      lset_append_self]
  rw [hfst]
  apply criteria_of_reads
  · simp only [getObj]
    exact lget_append_lt _ _ _ _ hi
  · simp only [getFilterList]
    exact lget_append_lt _ _ _ _ hw
  · simp only [getStrList]
    exact lget_append_lt _ _ _ _ ho

/-! ## Claim theorems -/

/-- Claim C1, evaluated at the failing input: every `Document.save()` call
raises `TypeError` — the call site passes the keyword argument `pk`, which
`Manager.create(self, data)` does not declare — so `save` never reaches
`Manager.create`'s body, never delegates to `Manager.update`, and never
returns self, for unsaved and saved documents alike. -/
theorem document_save_always_raises_typeerror (freshId : String) (d : PyDocument) :
    documentSave freshId d = .error .typeError := rfl

/-- Claim C2, evaluated at the failing inputs: the src `Manager` class has no
`all` attribute at all (AttributeError), and the value a `Manager.filter`
call returns is an async generator, which has none of the chainable Query
surface (`get`, `filter`, `order_by`) that `Query` instances provide and the
repo's own tests chain on the result; the call itself does execute zero
driver operations. -/
theorem manager_filter_returns_generator_and_no_all :
    managerClassAttrNames.contains "all" = false
    ∧ asyncGeneratorAttrNames.contains "get" = false
    ∧ asyncGeneratorAttrNames.contains "filter" = false
    ∧ asyncGeneratorAttrNames.contains "order_by" = false
    ∧ queryClassAttrNames.contains "get" = true
    ∧ ∀ a : MFilterArgs, (managerFilterCall a).2 = 0 :=
  ⟨by decide, by decide, by decide, by decide, by decide, fun _ => rfl⟩

/-- Claim C3: for every Query `q` and each of `filter`, `order_by`, `limit`,
`start_after`, `start_at`, the call returns a Query object distinct from `q`,
and `q`'s own criteria (filter list, order-by list, limit, cursors) are
exactly the same after the call as before it. -/
theorem query_chain_ops_immutable (h : QHeap) (i : Nat) (hwf : WF h i)
    (kwargs : List (String × Value)) (fields : List String) (n : Int) (cur : Cursor) :
    ((filterOp h i kwargs).2 ≠ i ∧ criteria (filterOp h i kwargs).1 i = criteria h i)
    ∧ ((orderByOp h i fields).2 ≠ i ∧ criteria (orderByOp h i fields).1 i = criteria h i)
    ∧ ((limitOp h i n).2 ≠ i ∧ criteria (limitOp h i n).1 i = criteria h i)
    ∧ ((startAfterOp h i cur).2 ≠ i ∧ criteria (startAfterOp h i cur).1 i = criteria h i)
    ∧ ((startAtOp h i cur).2 ≠ i ∧ criteria (startAtOp h i cur).1 i = criteria h i) := by
  have hi := hwf.1
  obtain ⟨f1, f2⟩ := filterOp_spec h i hwf kwargs
  obtain ⟨o1, o2⟩ := orderByOp_spec h i hwf fields
  obtain ⟨l1, l2⟩ := limitOp_spec h i hwf n
  obtain ⟨s1, s2⟩ := startAfterOp_spec h i hwf cur
  obtain ⟨t1, t2⟩ := startAtOp_spec h i hwf cur
  exact ⟨⟨by rw [f1]; omega, f2⟩, ⟨by rw [o1]; omega, o2⟩, ⟨by rw [l1]; omega, l2⟩,
    ⟨by rw [s1]; omega, s2⟩, ⟨by rw [t1]; omega, t2⟩⟩

theorem query_chain_ops_immutable_witness :
    ((filterOp baseHeap 0 [("name", Value.prim (Prim.pStr "x"))]).2 ≠ 0
      ∧ criteria (filterOp baseHeap 0 [("name", Value.prim (Prim.pStr "x"))]).1 0
          = criteria baseHeap 0)
    ∧ ((orderByOp baseHeap 0 ["price"]).2 ≠ 0
      ∧ criteria (orderByOp baseHeap 0 ["price"]).1 0 = criteria baseHeap 0)
    ∧ ((limitOp baseHeap 0 5).2 ≠ 0
      ∧ criteria (limitOp baseHeap 0 5).1 0 = criteria baseHeap 0)
    ∧ ((startAfterOp baseHeap 0 (Cursor.dict [])).2 ≠ 0
      ∧ criteria (startAfterOp baseHeap 0 (Cursor.dict [])).1 0 = criteria baseHeap 0)
    ∧ ((startAtOp baseHeap 0 (Cursor.dict [])).2 ≠ 0
      ∧ criteria (startAtOp baseHeap 0 (Cursor.dict [])).1 0 = criteria baseHeap 0) :=
  query_chain_ops_immutable baseHeap 0 (by decide)
    [("name", Value.prim (Prim.pStr "x"))] ["price"] 5 (Cursor.dict [])

/-- Claim C4: `Query.get` executes the query with the limit replaced by 2;
if the materialized limited result is empty it raises `DoesNotExist`, if it
has more than one document it raises `MultipleObjectsFound`, and if it has
exactly one document it returns that document. -/
theorem query_get_limit2_disambiguation (q : QueryS) (coll : List Doc)
    (results : List Doc)
    (hrun : queryIterF (queryLimitF q 2) coll = .ok results) :
    (results = [] → queryGetF q coll = .error .doesNotExist)
    ∧ (1 < results.length → queryGetF q coll = .error .multipleObjectsFound)
    ∧ (∀ d, results = [d] → queryGetF q coll = .ok d) := by
  refine ⟨?_, ?_, ?_⟩
  · intro he
    subst he
    simp [queryGetF, hrun]
  · intro hlen
    cases results with
    | nil => simp at hlen
    | cons a rest =>
      cases rest with
      | nil => simp at hlen
      | cons b rest2 => simp [queryGetF, hrun]
  · intro d hd
    subst hd
    simp [queryGetF, hrun]

theorem query_get_limit2_disambiguation_witness :
    queryGetF qSingleMatch collABC = .ok docA :=
  (query_get_limit2_disambiguation qSingleMatch collABC [docA] (by decide)).2.2 docA rfl

/-- Claim C5: a `batch()` scope entered with no active batch clears the
ambient handle on both exit paths; on normal exit the staged writes are
committed in exactly one atomic commit; on exceptional exit nothing is ever
committed and the exception propagates. -/
theorem batch_scope_commit_and_clear (fresh : Nat) (staged : List StagedWrite)
    (e : PyErr) :
    (runBatchScope none fresh (BodyOutcome.normal staged)).finalActive = none
    ∧ (runBatchScope none fresh (BodyOutcome.raises e staged)).finalActive = none
    ∧ (runBatchScope none fresh (BodyOutcome.normal staged)).effects.filter isCommitEffect
        = [BatchEffect.committed fresh staged]
    ∧ (runBatchScope none fresh (BodyOutcome.normal staged)).result = .ok ()
    ∧ (runBatchScope none fresh (BodyOutcome.raises e staged)).effects.filter isCommitEffect = []
    ∧ (runBatchScope none fresh (BodyOutcome.raises e staged)).result = .error e := by
  refine ⟨rfl, rfl, ?_, rfl, ?_, rfl⟩
  · simp [runBatchScope, isCommitEffect]
  · simp [runBatchScope, isCommitEffect]

/-- Claim C6 counterexample, at the concrete input of an active batch handle
0, fresh handle 1 and an empty body: nested entry raises `RuntimeError`, not
the `ValueError` the claim states (and indeed nothing is created or staged). -/
theorem batch_nesting_raises_runtime_not_value :
    (runBatchScope (some 0) 1 (BodyOutcome.normal [])).result = .error .runtimeError
    ∧ (runBatchScope (some 0) 1 (BodyOutcome.normal [])).result ≠ .error .valueError
    ∧ (runBatchScope (some 0) 1 (BodyOutcome.normal [])).effects = [] := by decide

/-- Claim C6 amended: entering `batch()` while another batch is active in
the current context raises `RuntimeError` immediately — before any batch
handle is created or any write staged (no effects), without running the
body, and leaving the ambient handle untouched. -/
theorem batch_nesting_raises_runtimeerror (hActive fresh : Nat) (body : BodyOutcome) :
    runBatchScope (some hActive) fresh body =
      { finalActive := some hActive, result := .error .runtimeError, effects := [] } := rfl

/-- Claim C7 counterexample: a Query whose `start_after` cursor is set to the
empty dict while `order_by` is empty executes without any error — the falsy
cursor bypasses both the guard and the cursor application — refuting the
claim that every set cursor without order_by raises `ValueError`. -/
theorem falsy_cursor_no_order_by_executes :
    qFalsyCursor.startAfterV = some (Cursor.dict [])
    ∧ qFalsyCursor.orderByL = []
    ∧ queryIterF qFalsyCursor [] = .ok []
    ∧ queryIterF qFalsyCursor [] ≠ .error .valueError := by decide

/-- Claim C7 amended: executing a Query (or a `Manager.filter` call) whose
`start_after` or `start_at` cursor is truthy (non-empty dict, model, or
other object) while the order-by criteria are empty raises `ValueError`
during query building, before the driver stream is requested; a falsy
cursor (the empty dict) is instead ignored entirely. -/
theorem truthy_cursor_without_order_by_raises (q : QueryS) (a : MFilterArgs)
    (coll : List Doc)
    (hq : q.orderByL = [])
    (hqc : (cursorTruthy q.startAfterV || cursorTruthy q.startAtV) = true)
    (ha : pyTruthyOptList a.orderByA = false)
    (hac : (cursorTruthy a.startAfterA || cursorTruthy a.startAtA) = true) :
    buildQueryF q coll = .error .valueError
    ∧ queryIterF q coll = .error .valueError
    ∧ managerFilterRun a coll = .error .valueError := by
  have h1 : applyPaginationF q (applyOrderingF q (applyFiltersF q coll))
      = .error .valueError := by
    simp [applyPaginationF, hq, hqc]
  have h2 : buildQueryF q coll = .error .valueError := by
    simp [buildQueryF, h1, Except.map]
  refine ⟨h2, ?_, ?_⟩
  · simp [queryIterF, h2, Bind.bind, Except.bind]
  · simp [managerFilterRun, ha, hac]

theorem truthy_cursor_without_order_by_raises_witness :
    queryIterF qTruthyCursorNoOrder collABC = .error .valueError
    ∧ managerFilterRun aTruthyCursorNoOrder collABC = .error .valueError := by
  have h := truthy_cursor_without_order_by_raises qTruthyCursorNoOrder
    aTruthyCursorNoOrder collABC rfl (by decide) (by decide) (by decide)
  exact ⟨h.2.1, h.2.2⟩

/-- Claim C8, evaluated at the failing input: for a subcollection Manager
whose parent has a (truthy) pk, reading `collection` raises `AttributeError`
— the source resolves the parent's manager through the non-existent Document
attribute `objects` (the installed class attribute is `documents`) — instead
of resolving the claimed `parent_collection/parent_pk/sub_name` path; the
pk-unset half of the claim (ValueError before driver access) does hold. -/
theorem subcollection_collection_attribute_error (m : ManagerS) (p : PyDocument)
    (hp : m.parent = some p) :
    (pyTruthyOptStr p.idV = true → managerCollection m = .error .attributeError)
    ∧ (pyTruthyOptStr p.idV = false → managerCollection m = .error .valueError) := by
  constructor
  · intro ht
    simp [managerCollection, hp, ht]
    decide
  · intro hf
    simp [managerCollection, hp, hf]

theorem subcollection_collection_attribute_error_witness :
    managerCollection reviewsManager = .error .attributeError :=
  (subcollection_collection_attribute_error reviewsManager parentDoc rfl).1 (by decide)

/-- Claim C9, with `Query.count` modelled from the spec: `Paginator.count`
runs one count aggregation over the Query's filter criteria — a count that
is insensitive to the limit, cursors and repr kwargs — and memoizes it per
Paginator instance (a cached count is returned with zero further
aggregations); `num_pages` is 0 when `per_page` is 0, and otherwise the
ceiling of the count divided by `per_page` (characterised as the least `m`
with `count ≤ m * per_page`). -/
theorem paginator_count_and_num_pages (q : QueryS) (coll : List Doc) (pp c : Nat)
    (lim : Option Int) (sa st : Option Cursor) (fr : List (String × Value)) :
    paginatorCount { perPage := pp, countCache := none } q coll
      = (queryCountSpec q coll,
         { perPage := pp, countCache := some (queryCountSpec q coll) }, 1)
    ∧ paginatorCount { perPage := pp, countCache := some c } q coll
      = (c, { perPage := pp, countCache := some c }, 0)
    ∧ queryCountSpec
        { q with limitV := lim, startAfterV := sa, startAtV := st, filtersForRepr := fr }
        coll = queryCountSpec q coll
    ∧ (pp = 0 → (paginatorNumPages { perPage := pp, countCache := some c } q coll).1 = 0)
    ∧ (pp ≠ 0 → c ≤ (paginatorNumPages { perPage := pp, countCache := some c } q coll).1 * pp)
    ∧ (pp ≠ 0 → ∀ m : Nat, c ≤ m * pp →
        (paginatorNumPages { perPage := pp, countCache := some c } q coll).1 ≤ m) := by
  refine ⟨rfl, rfl, rfl, ?_, ?_, ?_⟩
  · intro h0
    simp [paginatorNumPages, h0]
  · intro hpp
    have hpp' : 0 < pp := Nat.pos_of_ne_zero hpp
    simp only [paginatorNumPages, paginatorCount, if_neg hpp]
    cases c with
    | zero => simp
    | succ c2 =>
      have h1 : c2 + 1 + pp - 1 = c2 + pp := by omega
      rw [h1, Nat.add_div_right _ hpp']
      have h2 := Nat.div_add_mod c2 pp
      have h3 : c2 % pp < pp := Nat.mod_lt _ hpp'
      have h4 : (c2 / pp + 1) * pp = pp * (c2 / pp) + pp := by ring
      rw [h4]
      have key : ∀ A B : Nat, A + B = c2 → B < pp → c2 + 1 ≤ A + pp := by
        intro A B hAB hB
        omega
      exact key (pp * (c2 / pp)) (c2 % pp) h2 h3
  · intro hpp m hm
    have hpp' : 0 < pp := Nat.pos_of_ne_zero hpp
    simp only [paginatorNumPages, paginatorCount, if_neg hpp]
    have hm' : c ≤ pp * m := by rw [Nat.mul_comm]; exact hm
    have hle : ∀ A : Nat, c ≤ A → c + pp - 1 ≤ pp - 1 + A := by
      intro A hA
      omega
    calc (c + pp - 1) / pp ≤ (pp - 1 + pp * m) / pp :=
          Nat.div_le_div_right (hle (pp * m) hm')
      _ = (pp - 1) / pp + m := Nat.add_mul_div_left _ _ hpp'
      _ = 0 + m := by rw [Nat.div_eq_of_lt (by omega)]
      _ = m := by omega

theorem paginator_count_and_num_pages_witness :
    25 ≤ (paginatorNumPages { perPage := 10, countCache := some 25 } emptyQueryS []).1 * 10
    ∧ (paginatorNumPages { perPage := 10, countCache := some 25 } emptyQueryS []).1 ≤ 3 := by
  have h := paginator_count_and_num_pages emptyQueryS [] 10 25 none none none []
  exact ⟨h.2.2.2.2.1 (by decide), h.2.2.2.2.2 (by decide) 3 (by decide)⟩

/-- Claim C10: a limit of 0 (Python-falsy) is treated as no limit at all, in
both `Query._apply_limit` and the limit step of `Manager.filter`: execution
is identical to the same query with no limit set, and in particular (for a
query with no ordering and no truthy cursors) it yields every matching
document rather than zero documents. -/
theorem falsy_limit_means_no_limit (q : QueryS) (a : MFilterArgs) (coll : List Doc)
    (hq : q.limitV = some 0) (ha : a.limitA = some 0) :
    queryIterF q coll = queryIterF { q with limitV := none } coll
    ∧ managerFilterRun a coll = managerFilterRun { a with limitA := none } coll
    ∧ (q.orderByL = [] → cursorTruthy q.startAfterV = false →
        cursorTruthy q.startAtV = false →
        queryIterF q coll = .ok (coll.filter (docMatchesAll q.whereFilters))) := by
  have hL : applyLimitF q = applyLimitF { q with limitV := none } := by
    funext dq
    simp [applyLimitF, hq, pyTruthyOptInt]
  refine ⟨?_, ?_, ?_⟩
  · simp [queryIterF, buildQueryF, applyFiltersF, applyOrderingF, applyPaginationF,
      hL]
  · simp [managerFilterRun, ha, pyTruthyOptInt]
  · intro ho hsa hst
    have hb : buildQueryF q coll
        = .ok { source := coll, wheres := q.whereFilters, orders := [],
                startCursor := none, limitN := none } := by
      have hcn : cursorTruthy (none : Option Cursor) = false := rfl
      simp only [buildQueryF, applyFiltersF, applyOrderingF, applyPaginationF,
        foldl_dqWhere, emptyDriverQuery, ho, hq]
      cases hsa' : q.startAfterV with
      | none =>
        cases hst' : q.startAtV with
        | none =>
          simp [hcn, pyTruthyOptInt, applyLimitF, hq, Except.map, pure,
            Except.pure, Bind.bind, Except.bind]
        | some c2 =>
          rw [hst'] at hst
          simp [hcn, hst, pyTruthyOptInt, applyLimitF, hq, Except.map, pure,
            Except.pure, Bind.bind, Except.bind]
      | some c1 =>
        rw [hsa'] at hsa
        cases hst' : q.startAtV with
        | none =>
          simp [hcn, hsa, pyTruthyOptInt, applyLimitF, hq, Except.map, pure,
            Except.pure, Bind.bind, Except.bind]
        | some c2 =>
          rw [hst'] at hst
          simp [hsa, hst, pyTruthyOptInt, applyLimitF, hq, Except.map, pure,
            Except.pure, Bind.bind, Except.bind]
    simp [queryIterF, hb, dqStream, applyStartCursor, Bind.bind, Except.bind]

theorem falsy_limit_means_no_limit_witness :
    queryIterF qLimitZero collABC = .ok [docA, docB]
    ∧ managerFilterRun aLimitZero collABC
        = managerFilterRun { aLimitZero with limitA := none } collABC := by
  have h := falsy_limit_means_no_limit qLimitZero aLimitZero collABC rfl rfl
  refine ⟨?_, h.2.1⟩
  have h3 := h.2.2 rfl rfl rfl
  rw [h3]
  decide

end GcpPilot
